import Mathlib

/-!
Verification of the decision engine of the nordpool-temperature-control
repository.  The embedding models the pure decision functions of
temperature_logic.py, main.py and src/ha_client.py over the rationals:

- should_central_heating_run: price-ranking policy for the central heating
  shutoff relay (temperature_logic.py lines 63-109, duplicated in main.py).
- calculate_temperature_adjustment: linear price-to-offset formula with
  clamping and rounding to two decimals (temperature_logic.py lines 23-45).
- retry_request: exponential-backoff retry wrapper (main.py lines 65-86,
  duplicated in src/ha_client.py lines 33-54).
- control_heating / control_switch: actuator confirmation polling
  (main.py lines 230-272 and src/ha_client.py lines 275-341); the loop is
  modelled as a function of the list of poll responses it would observe.

Numbers are embedded as rationals.  Python float comparisons, sorting,
counting and min are order operations, which the rational model reproduces
exactly; the only arithmetic, the linear adjustment formula and
MAX_SHUTOFF_HOURS * 4, is exact on the configuration values of interest.
Fallible operations (list indexing that can raise IndexError, division that
can raise ZeroDivisionError) return Option, with none for the raise.
-/

namespace NordpoolTC

/-- Truncation toward zero, the behaviour of the Python int() cast applied
to a number, used for max_shutoff_quarters = int(MAX_SHUTOFF_HOURS * 4). -/
def pyInt (q : ℚ) : ℤ := if 0 ≤ q then ⌊q⌋ else ⌈q⌉

/-- Python list indexing: nonnegative indexes count from the front, negative
indexes count from the back, and an out-of-range index raises (none). -/
def pyGet (l : List ℚ) (i : ℤ) : Option ℚ :=
  if 0 ≤ i then l[i.toNat]?
  else if 0 ≤ (l.length : ℤ) + i then l[((l.length : ℤ) + i).toNat]? else none

/-- Embedding of sorted(daily_prices, reverse=True): sort descending. -/
def sortDesc (l : List ℚ) : List ℚ := List.insertionSort (fun a b => b ≤ a) l

/-- Which branch of should_central_heating_run produced the decision; this
stands for the reason string built in each return statement. -/
inductive Reason where
  | alwaysOn : Reason
  | noPriceData : Reason
  | inTopExpensive : Nat → Reason
  | notInTopExpensive : Reason
deriving DecidableEq

/-- Configuration read from the environment: PRICE_ALWAYS_ON_THRESHOLD and
MAX_SHUTOFF_HOURS. -/
structure HeatConfig where
  priceAlwaysOn : ℚ
  maxShutoffHours : ℚ
deriving DecidableEq

/-- Embedding of should_central_heating_run (temperature_logic.py lines
63-109; the copy in main.py lines 363-409 is identical).  The result is
none when the indexing sorted_prices[max_shutoff_quarters - 1] would raise
IndexError; otherwise some (should_run, reason). -/
def should_central_heating_run (cfg : HeatConfig) (current_price : ℚ)
    (daily_prices : List ℚ) : Option (Bool × Reason) :=
  if current_price < cfg.priceAlwaysOn then some (true, .alwaysOn)
  else if daily_prices.isEmpty then some (true, .noPriceData)
  else
    let max_shutoff_quarters : ℤ := pyInt (cfg.maxShutoffHours * 4)
    let sorted_prices := sortDesc daily_prices
    let thresholdOpt : Option ℚ :=
      if max_shutoff_quarters < (sorted_prices.length : ℤ) then
        pyGet sorted_prices (max_shutoff_quarters - 1)
      else daily_prices.min?
    match thresholdOpt with
    | none => none
    | some shutoff_threshold =>
      let expensive_quarters_count :=
        daily_prices.countP (fun p => decide (current_price ≤ p))
      if (expensive_quarters_count : ℤ) ≤ max_shutoff_quarters ∧
          shutoff_threshold ≤ current_price then
        some (false, .inTopExpensive expensive_quarters_count)
      else some (true, .notInTopExpensive)

/-- Shutoff threshold as the spec words it: the element at index
max_shutoff_quarters - 1 of the day prices sorted descending when
max_shutoff_quarters is below the list length, the minimum otherwise. -/
def shutoffThresholdSpec (daily_prices : List ℚ) (mq : ℤ) : Option ℚ :=
  if mq < (daily_prices.length : ℤ) then pyGet (sortDesc daily_prices) (mq - 1)
  else daily_prices.min?


theorem sortDesc_perm (l : List ℚ) : (sortDesc l).Perm l :=
  List.perm_insertionSort _ l

theorem sortDesc_length (l : List ℚ) : (sortDesc l).length = l.length :=
  (sortDesc_perm l).length_eq

theorem sortDesc_sorted (l : List ℚ) :
    List.Sorted (fun a b => b ≤ a) (sortDesc l) :=
  List.sorted_insertionSort _ l

/-- In a descending-sorted list the element at the final position is a lower
bound of the list. -/
theorem sorted_le_last (l : List ℚ) (hs : List.Sorted (fun a b => b ≤ a) l)
    (hpos : 0 < l.length) :
    ∀ b ∈ l, l.get ⟨l.length - 1, by omega⟩ ≤ b := by
  intro b hb
  obtain ⟨i, rfl⟩ := List.mem_iff_get.mp hb
  rcases Nat.lt_or_ge i.val (l.length - 1) with hlt | hge
  · exact hs.rel_get_of_lt hlt
  · have hi : i = (⟨l.length - 1, by omega⟩ : Fin l.length) := by
      apply Fin.ext
      show i.val = l.length - 1
      have := i.isLt
      omega
    rw [hi]

/-- Python indexing at -1 selects the element at the final position. -/
theorem pyGet_neg_one (l : List ℚ) (hpos : 0 < l.length) :
    pyGet l (-1) = some (l.get ⟨l.length - 1, by omega⟩) := by
  unfold pyGet
  rw [if_neg (by omega), if_pos (by omega)]
  have h2 : ((l.length : ℤ) + (-1)).toNat = l.length - 1 := by omega
  rw [h2, List.getElem?_eq_getElem (by omega)]
  simp [List.get_eq_getElem]

/-- Python indexing succeeds at every in-range nonnegative index. -/
theorem pyGet_of_nonneg (l : List ℚ) (i : ℤ) (h0 : 0 ≤ i)
    (hl : i < (l.length : ℤ)) : ∃ x, pyGet l i = some x := by
  unfold pyGet
  rw [if_pos h0]
  exact ⟨_, List.getElem?_eq_getElem (by omega)⟩

/-- With a nonempty price list and a nonnegative quarter budget the shutoff
threshold computation returns a value. -/
theorem threshold_some (daily : List ℚ) (mq : ℤ) (hne : daily ≠ [])
    (hmq : 0 ≤ mq) : ∃ thr, shutoffThresholdSpec daily mq = some thr := by
  have hpos : 0 < daily.length := List.length_pos.mpr hne
  unfold shutoffThresholdSpec
  by_cases hlt : mq < (daily.length : ℤ)
  · rw [if_pos hlt]
    rcases eq_or_lt_of_le hmq with h0 | h0
  
    · rw [show mq - 1 = -1 by omega]
      exact ⟨_, pyGet_neg_one _ (by rw [sortDesc_length]; exact hpos)⟩
    · exact pyGet_of_nonneg _ _ (by omega) (by rw [sortDesc_length]; omega)
  · rw [if_neg hlt]
    cases hmin : daily.min? with
    | none => exact absurd (List.min?_eq_none_iff.mp hmin) hne
    | some m => exact ⟨m, rfl⟩

/-- Unfolding of should_central_heating_run when the always-on and
empty-data branches are not taken and the threshold lookup succeeds. -/
theorem run_eq_of_threshold (cfg : HeatConfig) (current_price : ℚ)
    (daily_prices : List ℚ) (hne : daily_prices ≠ [])
    (hp : ¬ current_price < cfg.priceAlwaysOn) (thr : ℚ)
    (hthr : shutoffThresholdSpec daily_prices
      (pyInt (cfg.maxShutoffHours * 4)) = some thr) :
    should_central_heating_run cfg current_price daily_prices =
      some (if (daily_prices.countP (fun p => decide (current_price ≤ p)) : ℤ) ≤
            pyInt (cfg.maxShutoffHours * 4) ∧ thr ≤ current_price
        then (false, .inTopExpensive
          (daily_prices.countP fun p => decide (current_price ≤ p)))
        else (true, .notInTopExpensive)) := by
  have hemp : ¬ daily_prices.isEmpty := by
    simpa [List.isEmpty_iff] using hne
  unfold shutoffThresholdSpec at hthr
  rw [← sortDesc_length daily_prices] at hthr
  simp only [should_central_heating_run]
  rw [if_neg hp, if_neg hemp, hthr]
  split_ifs with h <;> simp [h]

/-- Round-half-to-even to an integer, the behaviour of the Python built-in
round on a representable value. -/
def roundHalfEven (q : ℚ) : ℤ :=
  if q - ⌊q⌋ < 1/2 then ⌊q⌋
  else if 1/2 < q - ⌊q⌋ then ⌊q⌋ + 1
  else if 2 ∣ ⌊q⌋ then ⌊q⌋ else ⌊q⌋ + 1

/-- Embedding of round(x, 2): round half to even at two decimals. -/
def round2 (q : ℚ) : ℚ := (roundHalfEven (q * 100) : ℚ) / 100

/-- Embedding of calculate_temperature_adjustment (temperature_logic.py
lines 23-45): linear formula, clamp to the variation band, round to two
decimals.  Configuration TEMP_VARIATION and PRICE_LOW_THRESHOLD passed as
the first two arguments. -/
def calculate_temperature_adjustment (tempVariation priceLowThreshold price : ℚ) : ℚ :=
  let adjustment := tempVariation - price * (tempVariation / priceLowThreshold)
  round2 (max (-tempVariation) (min tempVariation adjustment))

/-- The same computation with the Python failure mode made explicit: the
division TEMP_VARIATION / PRICE_LOW_THRESHOLD raises ZeroDivisionError when
PRICE_LOW_THRESHOLD is zero (none); otherwise the result of the formula. -/
def calcAdjustmentChecked (tempVariation priceLowThreshold price : ℚ) : Option ℚ :=
  if priceLowThreshold = 0 then none
  else some (calculate_temperature_adjustment tempVariation priceLowThreshold price)

/-- Room-heater decision in run_control (main.py line 533, src/control.py
line 71): heat exactly when the current temperature is strictly below the
setpoint. -/
def shouldHeat (currentTemperature setpointTemp : ℚ) : Bool :=
  decide (currentTemperature < setpointTemp)

/-- Service name chosen by control_heating (main.py line 236): turn_on when
heating is requested, turn_off otherwise. -/
def serviceName (should_heat : Bool) : String :=
  if should_heat then "turn_on" else "turn_off"

/-- One response observed by the confirmation polling loop: an HTTP reply
with a status code and a state payload, or a raised exception. -/
inductive PollResponse where
  | http : Nat → String → PollResponse
  | exc : PollResponse
deriving DecidableEq

/-- Overall outcome of the confirmation phase. -/
inductive ConfirmResult where
  | confirmed : ConfirmResult
  | notFound : ConfirmResult
  | unconfirmed : ConfirmResult
deriving DecidableEq

/-- Confirmation polling loop of control_heating (main.py lines 247-262),
fuelled by the number of remaining loop iterations and driven by the list
of responses the polls would observe.  Returns the outcome and the number
of polls issued.  A 200 reply with the expected state confirms; a 404
reply returns failure at once; any other reply or an exception leaves the
loop to its next iteration. -/
def heatingPollLoop (expected : String) :
    Nat → List PollResponse → ConfirmResult × Nat
  | 0, _ => (.unconfirmed, 0)
  | _ + 1, [] => (.unconfirmed, 0)
  | n + 1, r :: rest =>
    match r with
    | .http code st =>
      if code = 200 then
        if st = expected then (.confirmed, 1)
        else
          let p := heatingPollLoop expected n rest
          (p.1, p.2 + 1)
      else if code = 404 then (.notFound, 1)
      else
        let p := heatingPollLoop expected n rest
        (p.1, p.2 + 1)
    | .exc =>
      let p := heatingPollLoop expected n rest
      (p.1, p.2 + 1)

/-- Embedding of control_heating (main.py lines 230-272) after the service
command received the reply code cmdCode: on a 2xx acceptance the loop of
10 confirmation polls runs; confirmed and unconfirmed both yield True,
only the 404 branch yields False.  A non-2xx command reply yields False. -/
def control_heating (cmdCode : Nat) (expected : String)
    (trace : List PollResponse) : Bool :=
  if 200 ≤ cmdCode ∧ cmdCode < 300 then
    match (heatingPollLoop expected 10 trace).1 with
    | .confirmed => true
    | .notFound => false
    | .unconfirmed => true
  else false

/-- Embedding of get_switch_state (src/ha_client.py lines 275-291): the
state string on a 200 reply, and none on any other status or exception. -/
def get_switch_state (r : PollResponse) : Option String :=
  match r with
  | .http code st => if code = 200 then some st else none
  | .exc => none

/-- Confirmation polling loop of control_switch (src/ha_client.py lines
318-330): each iteration reads get_switch_state; the expected state
confirms, a missing state (none) returns failure at once, any other state
leaves the loop to its next iteration. -/
def switchPollLoop (expected : String) :
    Nat → List PollResponse → ConfirmResult × Nat
  | 0, _ => (.unconfirmed, 0)
  | _ + 1, [] => (.unconfirmed, 0)
  | n + 1, r :: rest =>
    match get_switch_state r with
    | some st =>
      if st = expected then (.confirmed, 1)
      else
        let p := switchPollLoop expected n rest
        (p.1, p.2 + 1)
    | none => (.notFound, 1)

/-- Embedding of control_switch (src/ha_client.py lines 294-340) after the
service command received the reply code cmdCode, mirroring
control_heating but with the polling loop of control_switch. -/
def control_switch (cmdCode : Nat) (expected : String)
    (trace : List PollResponse) : Bool :=
  if 200 ≤ cmdCode ∧ cmdCode < 300 then
    match (switchPollLoop expected 10 trace).1 with
    | .confirmed => true
    | .notFound => false
    | .unconfirmed => true
  else false

/-- Body of retry_request (main.py lines 76-86) from a given attempt index
with the given fuel (remaining iterations of the range loop).  The fetch
function is modelled by the value each attempt would return.  The result
records the returned value, the list of sleeps performed, and the number
of calls made. -/
def retryFrom (f : Nat → Option ℤ) (initialDelay : ℚ) (maxRetries : Nat) :
    Nat → Nat → Option ℤ × List ℚ × Nat
  | _, 0 => (none, [], 0)
  | attempt, fuel + 1 =>
    match f attempt with
    | some v => (some v, [], 1)
    | none =>
      if attempt < maxRetries - 1 then
        let r := retryFrom f initialDelay maxRetries (attempt + 1) fuel
        (r.1, initialDelay * 2 ^ attempt :: r.2.1, r.2.2 + 1)
      else (none, [], 1)

/-- Embedding of retry_request (main.py lines 65-86; the copy in
src/ha_client.py lines 33-54 is identical): up to maxRetries calls, sleeps
of initialDelay * 2 ^ attempt between failed attempts, none after the last
attempt. -/
def retry_request (f : Nat → Option ℤ) (maxRetries : Nat) (initialDelay : ℚ) :
    Option ℤ × List ℚ × Nat :=
  retryFrom f initialDelay maxRetries 0 maxRetries

/-- Claim C2: whenever the current price is strictly below
PRICE_ALWAYS_ON_THRESHOLD, should_central_heating_run returns should_run =
True with the always-on reason, for every daily price list including the
empty one; the always-on check precedes ranking and the empty-data check. -/
theorem c2_always_on (cfg : HeatConfig) (current_price : ℚ) (daily_prices : List ℚ)
    (h : current_price < cfg.priceAlwaysOn) :
    should_central_heating_run cfg current_price daily_prices =
      some (true, Reason.alwaysOn) := by
  simp [should_central_heating_run, h]

/-- Witness for c2_always_on at threshold 5, price 1, empty list. -/
theorem c2_always_on_witness :
    should_central_heating_run ⟨5, 6⟩ 1 [] = some (true, Reason.alwaysOn) :=
  c2_always_on ⟨5, 6⟩ 1 [] (by norm_num)

/-- Claim C3: for a current price at or above PRICE_ALWAYS_ON_THRESHOLD and
an empty daily price list, should_central_heating_run returns should_run =
True with the no-price-data reason: it fails open on missing data. -/
theorem c3_fail_open (cfg : HeatConfig) (current_price : ℚ)
    (h : cfg.priceAlwaysOn ≤ current_price) :
    should_central_heating_run cfg current_price [] =
      some (true, Reason.noPriceData) := by
  simp [should_central_heating_run, not_lt.mpr h]

/-- Witness for c3_fail_open at threshold 5, price 10. -/
theorem c3_fail_open_witness :
    should_central_heating_run ⟨5, 6⟩ 10 [] = some (true, Reason.noPriceData) :=
  c3_fail_open ⟨5, 6⟩ 10 (by norm_num)

/-- Claim C8: the room-heater decision is should_heat = (current temperature
is strictly below the setpoint), and at equality the commanded service is
turn_off. -/
theorem c8_strict_comparison (currentTemperature setpointTemp : ℚ) :
    (shouldHeat currentTemperature setpointTemp = true ↔
      currentTemperature < setpointTemp) ∧
    (currentTemperature = setpointTemp →
      serviceName (shouldHeat currentTemperature setpointTemp) = "turn_off") := by
  constructor
  · simp [shouldHeat]
  · intro h
    subst h
    simp [shouldHeat, serviceName]

/-- Witness for c8_strict_comparison at the pair 21, 21. -/
theorem c8_strict_comparison_witness :
    serviceName (shouldHeat 21 21) = "turn_off" :=
  (c8_strict_comparison 21 21).2 rfl

/-- Claim C4, evaluation at the failing input: a first confirmation poll
answered with a transient HTTP 500 makes control_switch in ha_client.py
return False after a single poll (its polling loop reports the not-found
outcome), even though a second poll would have confirmed; the
control_heating loop of main.py keeps polling on the same trace and
confirms on the second poll. -/
theorem c4_transient_error_divergence :
    switchPollLoop "on" 10 [.http 500 "", .http 200 "on"] =
      (ConfirmResult.notFound, 1) ∧
    control_switch 200 "on" [.http 500 "", .http 200 "on"] = false ∧
    heatingPollLoop "on" 10 [.http 500 "", .http 200 "on"] =
      (ConfirmResult.confirmed, 2) ∧
    control_heating 200 "on" [.http 500 "", .http 200 "on"] = true := by
  refine ⟨rfl, rfl, rfl, rfl⟩

/-- Claim C7, counterexample: with PRICE_LOW_THRESHOLD = 0 the division in
calculate_temperature_adjustment raises ZeroDivisionError (modelled none),
so the function is not total over every configuration. -/
theorem c7_counterexample : calcAdjustmentChecked (1/2) 0 7 = none := by
  simp [calcAdjustmentChecked]

/-- Claim C7 (amended): for every price and every configuration whose
PRICE_LOW_THRESHOLD is nonzero, calculate_temperature_adjustment returns a
result without raising. -/
theorem c7_total_of_nonzero_threshold (tempVariation priceLowThreshold price : ℚ)
    (h : priceLowThreshold ≠ 0) :
    ∃ y, calcAdjustmentChecked tempVariation priceLowThreshold price = some y :=
  ⟨calculate_temperature_adjustment tempVariation priceLowThreshold price,
    by simp [calcAdjustmentChecked, h]⟩

/-- Witness for c7_total_of_nonzero_threshold at the default configuration. -/
theorem c7_total_witness :
    ∃ y, calcAdjustmentChecked (1/2) 10 5 = some y :=
  c7_total_of_nonzero_threshold (1/2) 10 5 (by norm_num)

/-- The poll response is a 404 reply. -/
def poll404 (r : PollResponse) : Bool :=
  match r with
  | .http 404 _ => true
  | _ => false

/-- The poll response is a 200 reply carrying the expected state. -/
def pollMatches (expected : String) (r : PollResponse) : Bool :=
  match r with
  | .http 200 st => decide (st = expected)
  | _ => false

/-- When no poll response is a 404 and none matches the expected state, the
control_heating loop runs through all its fuel and reports unconfirmed,
issuing one poll per iteration. -/
theorem heatingPollLoop_exhausts (expected : String) :
    ∀ (n : Nat) (trace : List PollResponse),
      (∀ r ∈ trace, poll404 r = false ∧ pollMatches expected r = false) →
      heatingPollLoop expected n trace = (.unconfirmed, min n trace.length) := by
  intro n
  induction n with
  | zero => intro trace _; simp [heatingPollLoop]
  | succ k ih =>
    intro trace h
    cases trace with
    | nil => simp [heatingPollLoop]
    | cons r rest =>
      have hr := h r (List.mem_cons_self r rest)
      have hrest : ∀ x ∈ rest, poll404 x = false ∧ pollMatches expected x = false :=
        fun x hx => h x (List.mem_cons_of_mem r hx)
      cases r with
      | http code st =>
        by_cases hc : code = 200
        · subst hc
          have hst : st ≠ expected := by
            intro he
            subst he
            simp [pollMatches] at hr
          simp [heatingPollLoop, hst, ih rest hrest, Nat.succ_min_succ]
        · have hc4 : code ≠ 404 := by
            intro he
            subst he
            simp [poll404] at hr
          simp [heatingPollLoop, hc, hc4, ih rest hrest, Nat.succ_min_succ]
      | exc =>
        simp [heatingPollLoop, ih rest hrest, Nat.succ_min_succ]

/-- When every poll response carries an observed state and none of the
observed states is the expected one, the control_switch loop runs through
all its fuel and reports unconfirmed, issuing one poll per iteration. -/
theorem switchPollLoop_exhausts (expected : String) :
    ∀ (n : Nat) (trace : List PollResponse),
      (∀ r ∈ trace, (get_switch_state r).isSome ∧
        get_switch_state r ≠ some expected) →
      switchPollLoop expected n trace = (.unconfirmed, min n trace.length) := by
  intro n
  induction n with
  | zero => intro trace _; simp [switchPollLoop]
  | succ k ih =>
    intro trace h
    cases trace with
    | nil => simp [switchPollLoop]
    | cons r rest =>
      have hr := h r (List.mem_cons_self r rest)
      have hrest : ∀ x ∈ rest, (get_switch_state x).isSome ∧
          get_switch_state x ≠ some expected :=
        fun x hx => h x (List.mem_cons_of_mem r hx)
      obtain ⟨st, hst⟩ := Option.isSome_iff_exists.mp hr.1
      have hne : st ≠ expected := by
        intro he
        subst he
        exact hr.2 hst
      simp [switchPollLoop, hst, hne, ih rest hrest, Nat.succ_min_succ]

/-- Claim C5: after a 2xx command acceptance, if all 10 confirmation polls
complete without the observed state matching the expected state and without
a not-found response, both switch-control functions (control_heating in
main.py and control_switch in ha_client.py) report unconfirmed after
exactly 10 polls and return success (True). -/
theorem c5_unconfirmed_is_success (cmdCode : Nat) (expected : String)
    (trace : List PollResponse) (hlo : 200 ≤ cmdCode) (hhi : cmdCode < 300)
    (hlen : trace.length = 10) :
    ((∀ r ∈ trace, poll404 r = false ∧ pollMatches expected r = false) →
      heatingPollLoop expected 10 trace = (.unconfirmed, 10) ∧
      control_heating cmdCode expected trace = true) ∧
    ((∀ r ∈ trace, (get_switch_state r).isSome ∧
        get_switch_state r ≠ some expected) →
      switchPollLoop expected 10 trace = (.unconfirmed, 10) ∧
      control_switch cmdCode expected trace = true) := by
  constructor
  · intro h
    have hl := heatingPollLoop_exhausts expected 10 trace h
    rw [hlen] at hl
    refine ⟨by simpa using hl, ?_⟩
    simp [control_heating, hlo, hhi, hl]
  · intro h
    have hl := switchPollLoop_exhausts expected 10 trace h
    rw [hlen] at hl
    refine ⟨by simpa using hl, ?_⟩
    simp [control_switch, hlo, hhi, hl]

/-- Witness for c5_unconfirmed_is_success: ten polls all observing state
off while on was expected. -/
theorem c5_unconfirmed_is_success_witness :
    heatingPollLoop "on" 10 (List.replicate 10 (.http 200 "off")) =
      (.unconfirmed, 10) ∧
    control_heating 200 "on" (List.replicate 10 (.http 200 "off")) = true ∧
    switchPollLoop "on" 10 (List.replicate 10 (.http 200 "off")) =
      (.unconfirmed, 10) ∧
    control_switch 200 "on" (List.replicate 10 (.http 200 "off")) = true := by
  have h := c5_unconfirmed_is_success 200 "on"
    (List.replicate 10 (.http 200 "off")) (by norm_num) (by norm_num) (by simp)
  have h1 := h.1 (by decide)
  have h2 := h.2 (by decide)
  exact ⟨h1.1, h1.2, h2.1, h2.2⟩

/-- Claim C9: with max_retries = 3 and initial_delay = 1, retry_request
makes at most 3 calls, returns the first value that is not none, returns
the third value after sleeps of exactly 1 second and 2 seconds and no sleep
after the final attempt, and yields none when all three calls fail. -/
theorem c9_retry_request (f : Nat → Option ℤ) :
    (retry_request f 3 1).2.2 ≤ 3 ∧
    (retry_request f 3 1).1 =
      ((f 0).orElse fun _ => (f 1).orElse fun _ => f 2) ∧
    (∀ v, f 0 = none → f 1 = none → f 2 = some v →
      retry_request f 3 1 = (some v, [1, 2], 3)) ∧
    (f 0 = none → f 1 = none → f 2 = none →
      retry_request f 3 1 = (none, [1, 2], 3)) := by
  rcases h0 : f 0 with _ | v0 <;> rcases h1 : f 1 with _ | v1 <;>
    rcases h2 : f 2 with _ | v2 <;>
    simp [retry_request, retryFrom, h0, h1, h2, Option.orElse]

/-- Witness for c9_retry_request: a fetch that fails twice then returns 42. -/
theorem c9_retry_request_witness :
    retry_request (fun i => if i = 2 then some 42 else none) 3 1 =
      (some 42, [1, 2], 3) :=
  (c9_retry_request fun i => if i = 2 then some 42 else none).2.2.1 42
    (by simp) (by simp) (by simp)

/-- Claim C1: for every non-empty daily price list and every current price
at or above PRICE_ALWAYS_ON_THRESHOLD (with a nonnegative configured
MAX_SHUTOFF_HOURS), should_central_heating_run returns should_run = False
if and only if the count of day prices at or above the current price is at
most int(MAX_SHUTOFF_HOURS * 4) and the current price is at or above the
shutoff threshold, the threshold being the element at index
max_shutoff_quarters - 1 of the day prices sorted descending when
max_shutoff_quarters is below the list length and the day minimum
otherwise. -/
theorem c1_blocking_iff (cfg : HeatConfig) (current_price : ℚ)
    (daily_prices : List ℚ) (hne : daily_prices ≠ [])
    (hp : cfg.priceAlwaysOn ≤ current_price) (hms : 0 ≤ cfg.maxShutoffHours) :
    ∃ thr r,
      shutoffThresholdSpec daily_prices (pyInt (cfg.maxShutoffHours * 4)) =
        some thr ∧
      should_central_heating_run cfg current_price daily_prices = some r ∧
      (r.1 = false ↔
        ((daily_prices.countP fun p => decide (current_price ≤ p)) : ℤ) ≤
            pyInt (cfg.maxShutoffHours * 4) ∧ thr ≤ current_price) := by
  have hprod : (0:ℚ) ≤ cfg.maxShutoffHours * 4 := mul_nonneg hms (by norm_num)
  have hmq : 0 ≤ pyInt (cfg.maxShutoffHours * 4) := by
    unfold pyInt
    rw [if_pos hprod]
    exact Int.floor_nonneg.mpr hprod
  obtain ⟨thr, hthr⟩ := threshold_some daily_prices _ hne hmq
  have hrun := run_eq_of_threshold cfg current_price daily_prices hne
    (not_lt.mpr hp) thr hthr
  by_cases hcond :
      ((daily_prices.countP fun p => decide (current_price ≤ p)) : ℤ) ≤
        pyInt (cfg.maxShutoffHours * 4) ∧ thr ≤ current_price
  · refine ⟨thr, (false, .inTopExpensive
      (daily_prices.countP fun p => decide (current_price ≤ p))), hthr, ?_, ?_⟩
    · rw [hrun, if_pos hcond]
    · simpa using hcond
  · refine ⟨thr, (true, .notInTopExpensive), hthr, ?_, ?_⟩
    · rw [hrun, if_neg hcond]
    · simp [hcond]

/-- Witness for c1_blocking_iff at threshold 5, six shutoff hours, price
10, day prices 1, 2, 3. -/
theorem c1_blocking_iff_witness :
    ∃ thr r,
      shutoffThresholdSpec [1, 2, 3]
        (pyInt ((HeatConfig.mk 5 6).maxShutoffHours * 4)) = some thr ∧
      should_central_heating_run ⟨5, 6⟩ 10 [1, 2, 3] = some r ∧
      (r.1 = false ↔
        (([1, 2, 3].countP fun p => decide ((10:ℚ) ≤ p)) : ℤ) ≤
            pyInt ((HeatConfig.mk 5 6).maxShutoffHours * 4) ∧ thr ≤ 10) :=
  c1_blocking_iff ⟨5, 6⟩ 10 [1, 2, 3] (by simp) (by norm_num) (by norm_num)

/-- Claim C10: when int(MAX_SHUTOFF_HOURS * 4) = 0, for every non-empty
daily price list and every current price at or above
PRICE_ALWAYS_ON_THRESHOLD, the index max_shutoff_quarters - 1 selects the
final element of the descending sort, which is the day minimum, and
should_central_heating_run returns should_run = False exactly when the
current price is strictly greater than every day price. -/
theorem c10_zero_budget (cfg : HeatConfig) (current_price : ℚ)
    (daily_prices : List ℚ) (hne : daily_prices ≠ [])
    (hp : cfg.priceAlwaysOn ≤ current_price)
    (hmq : pyInt (cfg.maxShutoffHours * 4) = 0) :
    ∃ m r,
      pyGet (sortDesc daily_prices) (pyInt (cfg.maxShutoffHours * 4) - 1) =
        some m ∧
      m ∈ daily_prices ∧ (∀ p ∈ daily_prices, m ≤ p) ∧
      should_central_heating_run cfg current_price daily_prices = some r ∧
      (r.1 = false ↔ ∀ p ∈ daily_prices, p < current_price) := by
  have hpos : 0 < daily_prices.length := List.length_pos.mpr hne
  have hspos : 0 < (sortDesc daily_prices).length := by
    rw [sortDesc_length]
    exact hpos
  have hget := pyGet_neg_one (sortDesc daily_prices) hspos
  have hmem : (sortDesc daily_prices).get
      ⟨(sortDesc daily_prices).length - 1, by omega⟩ ∈ daily_prices :=
    (sortDesc_perm daily_prices).mem_iff.mp (List.get_mem _ _ _)
  have hlb : ∀ p ∈ daily_prices,
      (sortDesc daily_prices).get
        ⟨(sortDesc daily_prices).length - 1, by omega⟩ ≤ p := by
    intro p hp2
    exact sorted_le_last (sortDesc daily_prices) (sortDesc_sorted daily_prices)
      hspos p ((sortDesc_perm daily_prices).mem_iff.mpr hp2)
  have hthr : shutoffThresholdSpec daily_prices
      (pyInt (cfg.maxShutoffHours * 4)) =
      some ((sortDesc daily_prices).get
        ⟨(sortDesc daily_prices).length - 1, by omega⟩) := by
    unfold shutoffThresholdSpec
    rw [hmq, if_pos (by exact_mod_cast hpos), show (0:ℤ) - 1 = -1 by ring]
    exact hget
  have hrun := run_eq_of_threshold cfg current_price daily_prices hne
    (not_lt.mpr hp) _ hthr
  have hiff :
      (((daily_prices.countP fun p => decide (current_price ≤ p)) : ℤ) ≤
          pyInt (cfg.maxShutoffHours * 4) ∧
        (sortDesc daily_prices).get
          ⟨(sortDesc daily_prices).length - 1, by omega⟩ ≤ current_price) ↔
      (∀ p ∈ daily_prices, p < current_price) := by
    rw [hmq]
    constructor
    · rintro ⟨hcnt, _⟩
      have h0 : daily_prices.countP (fun p => decide (current_price ≤ p)) = 0 := by
        omega
      intro p hp2
      have hnp := List.countP_eq_zero.mp h0 p hp2
      simp only [decide_eq_true_eq] at hnp
      exact lt_of_not_ge hnp
    · intro hall
      refine ⟨?_, le_of_lt (hall _ hmem)⟩
      have h0 : daily_prices.countP (fun p => decide (current_price ≤ p)) = 0 :=
        List.countP_eq_zero.mpr
          (fun p hp2 => by simp [not_le.mpr (hall p hp2)])
      simp [h0]
  rw [hmq, show (0:ℤ) - 1 = -1 by ring]
  by_cases hcond :
      ((daily_prices.countP fun p => decide (current_price ≤ p)) : ℤ) ≤
        pyInt (cfg.maxShutoffHours * 4) ∧
      (sortDesc daily_prices).get
        ⟨(sortDesc daily_prices).length - 1, by omega⟩ ≤ current_price
  · refine ⟨_, (false, .inTopExpensive
      (daily_prices.countP fun p => decide (current_price ≤ p))),
      hget, hmem, hlb, ?_, ?_⟩
    · rw [hrun, if_pos hcond]
    · exact iff_of_true rfl (hiff.mp hcond)
  · refine ⟨_, (true, .notInTopExpensive), hget, hmem, hlb, ?_, ?_⟩
    · rw [hrun, if_neg hcond]
    · exact iff_of_false (by simp) (fun hall => hcond (hiff.mpr hall))

/-- Witness for c10_zero_budget at zero shutoff hours, price 10 against the
single day price 5. -/
theorem c10_zero_budget_witness :
    ∃ m r,
      pyGet (sortDesc [5])
        (pyInt ((HeatConfig.mk 0 0).maxShutoffHours * 4) - 1) = some m ∧
      m ∈ [(5:ℚ)] ∧ (∀ p ∈ [(5:ℚ)], m ≤ p) ∧
      should_central_heating_run ⟨0, 0⟩ 10 [5] = some r ∧
      (r.1 = false ↔ ∀ p ∈ [(5:ℚ)], p < 10) :=
  c10_zero_budget ⟨0, 0⟩ 10 [5] (by simp) (by norm_num) (by simp [pyInt])

theorem floor_le_roundHalfEven (q : ℚ) : ⌊q⌋ ≤ roundHalfEven q := by
  unfold roundHalfEven
  split_ifs <;> omega

theorem roundHalfEven_le_ceil (q : ℚ) : roundHalfEven q ≤ ⌈q⌉ := by
  have hfc : ⌊q⌋ ≤ ⌈q⌉ := Int.floor_le_ceil q
  have hlt : (1:ℚ)/2 ≤ q - ⌊q⌋ → ⌊q⌋ + 1 ≤ ⌈q⌉ := by
    intro h
    have : (⌊q⌋ : ℚ) < q := by linarith
    exact Int.add_one_le_iff.mpr (Int.lt_ceil.mpr this)
  unfold roundHalfEven
  split_ifs with h1 h2 h3
  · exact hfc
  · exact hlt (by linarith)
  · exact hfc
  · exact hlt (by linarith)

theorem roundHalfEven_intCast (z : ℤ) : roundHalfEven (z : ℚ) = z := by
  unfold roundHalfEven
  rw [Int.floor_intCast]
  rw [if_pos (by norm_num)]

theorem round2_le (x : ℚ) (k : ℤ) (h : x * 100 ≤ (k : ℚ)) :
    round2 x ≤ (k : ℚ) / 100 := by
  unfold round2
  have h1 : roundHalfEven (x * 100) ≤ ⌈x * 100⌉ := roundHalfEven_le_ceil _
  have h2 : ⌈x * 100⌉ ≤ ⌈((k : ℤ) : ℚ)⌉ := Int.ceil_mono h
  have h3 : ⌈((k : ℤ) : ℚ)⌉ = k := Int.ceil_intCast k
  have h4 : (roundHalfEven (x * 100) : ℚ) ≤ (k : ℚ) := by
    exact_mod_cast h1.trans (h3 ▸ h2)
  linarith

theorem le_round2 (x : ℚ) (k : ℤ) (h : (k : ℚ) ≤ x * 100) :
    (k : ℚ) / 100 ≤ round2 x := by
  unfold round2
  have h1 : ⌊((k : ℤ) : ℚ)⌋ ≤ ⌊x * 100⌋ := Int.floor_mono h
  have h3 : ⌊((k : ℤ) : ℚ)⌋ = k := Int.floor_intCast k
  have h4 : (k : ℚ) ≤ (roundHalfEven (x * 100) : ℚ) := by
    exact_mod_cast (h3 ▸ h1).trans (floor_le_roundHalfEven _)
  linarith

theorem round2_div100 (k : ℤ) : round2 ((k : ℚ) / 100) = (k : ℚ) / 100 := by
  unfold round2
  rw [div_mul_cancel₀ _ (show (100:ℚ) ≠ 0 by norm_num), roundHalfEven_intCast]

theorem round2_zero : round2 0 = 0 := by
  have h := round2_div100 0
  norm_num at h
  exact h

/-- Claim C6 (amended): when TEMP_VARIATION is positive and an exact
multiple of 0.01 and PRICE_LOW_THRESHOLD is positive, the adjustment lies
in the closed variation band for every price, equals TEMP_VARIATION at
price 0, equals 0 at the low threshold, equals the negative variation at
twice the threshold, and is antisymmetric between those two endpoints. -/
theorem c6_adjustment_shape (V L p : ℚ) (hV : 0 < V) (hL : 0 < L) (k : ℤ)
    (hk : V = (k : ℚ) / 100) :
    (-V ≤ calculate_temperature_adjustment V L p ∧
      calculate_temperature_adjustment V L p ≤ V) ∧
    calculate_temperature_adjustment V L 0 = V ∧
    calculate_temperature_adjustment V L L = 0 ∧
    calculate_temperature_adjustment V L (2 * L) = -V ∧
    calculate_temperature_adjustment V L 0 =
      -(calculate_temperature_adjustment V L (2 * L)) := by
  have hnegle : -V ≤ V := by linarith
  have hzero : calculate_temperature_adjustment V L 0 = V := by
    simp only [calculate_temperature_adjustment]
    rw [show V - 0 * (V / L) = V by ring, min_self, max_eq_right hnegle, hk,
      round2_div100]
  have hmid : calculate_temperature_adjustment V L L = 0 := by
    simp only [calculate_temperature_adjustment]
    rw [show V - L * (V / L) = 0 by field_simp, min_eq_right hV.le,
      max_eq_right (by linarith), round2_zero]
  have hneg : calculate_temperature_adjustment V L (2 * L) = -V := by
    simp only [calculate_temperature_adjustment]
    have e : V - 2 * L * (V / L) = -V := by
      field_simp
      ring
    rw [e, min_eq_right (by linarith), max_self,
      show -V = ((-k : ℤ) : ℚ) / 100 by push_cast; rw [hk]; ring,
      round2_div100]
  have hbound : -V ≤ calculate_temperature_adjustment V L p ∧
      calculate_temperature_adjustment V L p ≤ V := by
    simp only [calculate_temperature_adjustment]
    set x := max (-V) (min V (V - p * (V / L))) with hx
    have hx1 : -V ≤ x := le_max_left _ _
    have hx2 : x ≤ V := max_le hnegle (min_le_left _ _)
    constructor
    · have hc : ((-k : ℤ) : ℚ) ≤ x * 100 := by
        rw [hk] at hx1
        push_cast
        linarith
      have h5 := le_round2 x (-k) hc
      calc -V = ((-k : ℤ) : ℚ) / 100 := by push_cast; rw [hk]; ring
        _ ≤ round2 x := h5
    · have hc : x * 100 ≤ ((k : ℤ) : ℚ) := by
        rw [hk] at hx2
        linarith
      have h5 := round2_le x k hc
      calc round2 x ≤ ((k : ℤ) : ℚ) / 100 := h5
        _ = V := hk.symm
  refine ⟨hbound, hzero, hmid, hneg, ?_⟩
  rw [hzero, hneg, neg_neg]

/-- Witness for c6_adjustment_shape at the default configuration
TEMP_VARIATION = 0.5, PRICE_LOW_THRESHOLD = 10, price 5. -/
theorem c6_adjustment_shape_witness :
    (-(1/2 : ℚ) ≤ calculate_temperature_adjustment (1/2) 10 5 ∧
      calculate_temperature_adjustment (1/2) 10 5 ≤ 1/2) ∧
    calculate_temperature_adjustment (1/2) 10 0 = 1/2 ∧
    calculate_temperature_adjustment (1/2) 10 10 = 0 ∧
    calculate_temperature_adjustment (1/2) 10 (2 * 10) = -(1/2) ∧
    calculate_temperature_adjustment (1/2) 10 0 =
      -(calculate_temperature_adjustment (1/2) 10 (2 * 10)) :=
  c6_adjustment_shape (1/2) 10 5 (by norm_num) (by norm_num) 50 (by norm_num)

/-- Claim C6, counterexample: with TEMP_VARIATION = 0.126 (a configuration
allowed by the claim, which only requires positivity) the adjustment at
price 0 rounds to 0.13, which exceeds TEMP_VARIATION and differs from it,
so the claimed band and endpoint equalities fail. -/
theorem c6_counterexample :
    calculate_temperature_adjustment (63/500) 10 0 = 13/100 ∧
    ¬ calculate_temperature_adjustment (63/500) 10 0 ≤ 63/500 ∧
    calculate_temperature_adjustment (63/500) 10 0 ≠ 63/500 := by
  have hfl : ⌊(63/5 : ℚ)⌋ = 12 := Int.floor_eq_iff.mpr (by norm_num)
  have harg : max (-(63/500 : ℚ))
      (min (63/500 : ℚ) ((63/500 : ℚ) - 0 * ((63/500 : ℚ) / 10))) = 63/500 := by
    norm_num
  have hval : calculate_temperature_adjustment (63/500) 10 0 = 13/100 := by
    simp only [calculate_temperature_adjustment]
    rw [harg]
    unfold round2 roundHalfEven
    rw [show (63/500 : ℚ) * 100 = 63/5 by norm_num, hfl]
    norm_num
  refine ⟨hval, by rw [hval]; norm_num, by rw [hval]; norm_num⟩

end NordpoolTC
